import Mathlib

/-!
Verification development for the CryptoNight hash core
(cryptonight.go, the amd64 AES assembly, and the example test).

The embedding below is shallow: Go byte slices become `List Nat` (each
entry a byte value; the uint8 domain is modelled by reducing mod 256 at
every point where the source reads a byte as a machine integer), the
2 MiB scratchpad becomes a total function `Nat → Nat` indexed by byte
address, 64-bit lanes become `Nat` with explicit reduction mod 2^64, and
the external primitives (Keccak absorb/permute and the four 256-bit
finalizer hashes, which the repository consumes as black boxes) become
fields of a `Prims` structure together with their advertised length laws.
-/

namespace Cryptonight

/-- The AES S-box of FIPS-197, as a 256-entry table. -/
def sboxTable : List Nat :=
  [0x63, 0x7c, 0x77, 0x7b, 0xf2, 0x6b, 0x6f, 0xc5, 0x30, 0x01, 0x67, 0x2b, 0xfe, 0xd7, 0xab, 0x76,
   0xca, 0x82, 0xc9, 0x7d, 0xfa, 0x59, 0x47, 0xf0, 0xad, 0xd4, 0xa2, 0xaf, 0x9c, 0xa4, 0x72, 0xc0,
   0xb7, 0xfd, 0x93, 0x26, 0x36, 0x3f, 0xf7, 0xcc, 0x34, 0xa5, 0xe5, 0xf1, 0x71, 0xd8, 0x31, 0x15,
   0x04, 0xc7, 0x23, 0xc3, 0x18, 0x96, 0x05, 0x9a, 0x07, 0x12, 0x80, 0xe2, 0xeb, 0x27, 0xb2, 0x75,
   0x09, 0x83, 0x2c, 0x1a, 0x1b, 0x6e, 0x5a, 0xa0, 0x52, 0x3b, 0xd6, 0xb3, 0x29, 0xe3, 0x2f, 0x84,
   0x53, 0xd1, 0x00, 0xed, 0x20, 0xfc, 0xb1, 0x5b, 0x6a, 0xcb, 0xbe, 0x39, 0x4a, 0x4c, 0x58, 0xcf,
   0xd0, 0xef, 0xaa, 0xfb, 0x43, 0x4d, 0x33, 0x85, 0x45, 0xf9, 0x02, 0x7f, 0x50, 0x3c, 0x9f, 0xa8,
   0x51, 0xa3, 0x40, 0x8f, 0x92, 0x9d, 0x38, 0xf5, 0xbc, 0xb6, 0xda, 0x21, 0x10, 0xff, 0xf3, 0xd2,
   0xcd, 0x0c, 0x13, 0xec, 0x5f, 0x97, 0x44, 0x17, 0xc4, 0xa7, 0x7e, 0x3d, 0x64, 0x5d, 0x19, 0x73,
   0x60, 0x81, 0x4f, 0xdc, 0x22, 0x2a, 0x90, 0x88, 0x46, 0xee, 0xb8, 0x14, 0xde, 0x5e, 0x0b, 0xdb,
   0xe0, 0x32, 0x3a, 0x0a, 0x49, 0x06, 0x24, 0x5c, 0xc2, 0xd3, 0xac, 0x62, 0x91, 0x95, 0xe4, 0x79,
   0xe7, 0xc8, 0x37, 0x6d, 0x8d, 0xd5, 0x4e, 0xa9, 0x6c, 0x56, 0xf4, 0xea, 0x65, 0x7a, 0xae, 0x08,
   0xba, 0x78, 0x25, 0x2e, 0x1c, 0xa6, 0xb4, 0xc6, 0xe8, 0xdd, 0x74, 0x1f, 0x4b, 0xbd, 0x8b, 0x8a,
   0x70, 0x3e, 0xb5, 0x66, 0x48, 0x03, 0xf6, 0x0e, 0x61, 0x35, 0x57, 0xb9, 0x86, 0xc1, 0x1d, 0x9e,
   0xe1, 0xf8, 0x98, 0x11, 0x69, 0xd9, 0x8e, 0x94, 0x9b, 0x1e, 0x87, 0xe9, 0xce, 0x55, 0x28, 0xdf,
   0x8c, 0xa1, 0x89, 0x0d, 0xbf, 0xe6, 0x42, 0x68, 0x41, 0x99, 0x2d, 0x0f, 0xb0, 0x54, 0xbb, 0x16]

/-- S-box substitution on one byte (the input is reduced to the uint8 domain). -/
def sub (x : Nat) : Nat := sboxTable.getD (x % 256) 0

/-- Multiplication by 2 in GF(2^8) (the xtime operation used by MixColumns). -/
def xtime (x : Nat) : Nat :=
  let y := (x % 256) * 2
  if y < 256 then y else (y ^^^ 27) % 256

/-- Multiplication by 3 in GF(2^8). -/
def gmul3 (x : Nat) : Nat := xtime x ^^^ (x % 256)

/-- A 128-bit AES block viewed as its 16 bytes, in memory order
(byte 0 is the lowest address; the AES state reads it column-major). -/
structure Blk where
  b0 : Nat
  b1 : Nat
  b2 : Nat
  b3 : Nat
  b4 : Nat
  b5 : Nat
  b6 : Nat
  b7 : Nat
  b8 : Nat
  b9 : Nat
  b10 : Nat
  b11 : Nat
  b12 : Nat
  b13 : Nat
  b14 : Nat
  b15 : Nat
  deriving DecidableEq

/-- The all-zero block. -/
def zeroBlk : Blk := ⟨0, 0, 0, 0, 0, 0, 0, 0, 0, 0, 0, 0, 0, 0, 0, 0⟩

/-- SubBytes: the S-box applied to every byte of the state. -/
def subBytes (s : Blk) : Blk :=
  ⟨sub s.b0, sub s.b1, sub s.b2, sub s.b3, sub s.b4, sub s.b5, sub s.b6, sub s.b7,
   sub s.b8, sub s.b9, sub s.b10, sub s.b11, sub s.b12, sub s.b13, sub s.b14, sub s.b15⟩

/-- ShiftRows: with the state column-major (byte 4c+r = row r of column c),
row r is rotated left by r columns. -/
def shiftRows (s : Blk) : Blk :=
  ⟨s.b0, s.b5, s.b10, s.b15,
   s.b4, s.b9, s.b14, s.b3,
   s.b8, s.b13, s.b2, s.b7,
   s.b12, s.b1, s.b6, s.b11⟩

/-- MixColumns: each 4-byte column is multiplied by the fixed circulant
matrix (2 3 1 1 / 1 2 3 1 / 1 1 2 3 / 3 1 1 2) over GF(2^8). -/
def mixColumns (s : Blk) : Blk :=
  ⟨xtime s.b0 ^^^ gmul3 s.b1 ^^^ (s.b2 % 256) ^^^ (s.b3 % 256),
   (s.b0 % 256) ^^^ xtime s.b1 ^^^ gmul3 s.b2 ^^^ (s.b3 % 256),
   (s.b0 % 256) ^^^ (s.b1 % 256) ^^^ xtime s.b2 ^^^ gmul3 s.b3,
   gmul3 s.b0 ^^^ (s.b1 % 256) ^^^ (s.b2 % 256) ^^^ xtime s.b3,
   xtime s.b4 ^^^ gmul3 s.b5 ^^^ (s.b6 % 256) ^^^ (s.b7 % 256),
   (s.b4 % 256) ^^^ xtime s.b5 ^^^ gmul3 s.b6 ^^^ (s.b7 % 256),
   (s.b4 % 256) ^^^ (s.b5 % 256) ^^^ xtime s.b6 ^^^ gmul3 s.b7,
   gmul3 s.b4 ^^^ (s.b5 % 256) ^^^ (s.b6 % 256) ^^^ xtime s.b7,
   xtime s.b8 ^^^ gmul3 s.b9 ^^^ (s.b10 % 256) ^^^ (s.b11 % 256),
   (s.b8 % 256) ^^^ xtime s.b9 ^^^ gmul3 s.b10 ^^^ (s.b11 % 256),
   (s.b8 % 256) ^^^ (s.b9 % 256) ^^^ xtime s.b10 ^^^ gmul3 s.b11,
   gmul3 s.b8 ^^^ (s.b9 % 256) ^^^ (s.b10 % 256) ^^^ xtime s.b11,
   xtime s.b12 ^^^ gmul3 s.b13 ^^^ (s.b14 % 256) ^^^ (s.b15 % 256),
   (s.b12 % 256) ^^^ xtime s.b13 ^^^ gmul3 s.b14 ^^^ (s.b15 % 256),
   (s.b12 % 256) ^^^ (s.b13 % 256) ^^^ xtime s.b14 ^^^ gmul3 s.b15,
   gmul3 s.b12 ^^^ (s.b13 % 256) ^^^ (s.b14 % 256) ^^^ xtime s.b15⟩

/-- AddRoundKey: bytewise XOR with the round key. -/
def xorBlk (s k : Blk) : Blk :=
  ⟨s.b0 ^^^ k.b0, s.b1 ^^^ k.b1, s.b2 ^^^ k.b2, s.b3 ^^^ k.b3,
   s.b4 ^^^ k.b4, s.b5 ^^^ k.b5, s.b6 ^^^ k.b6, s.b7 ^^^ k.b7,
   s.b8 ^^^ k.b8, s.b9 ^^^ k.b9, s.b10 ^^^ k.b10, s.b11 ^^^ k.b11,
   s.b12 ^^^ k.b12, s.b13 ^^^ k.b13, s.b14 ^^^ k.b14, s.b15 ^^^ k.b15⟩

/-- Semantics of one AESENC instruction (Intel SDM order:
ShiftRows, then SubBytes, then MixColumns, then XOR with the round key).
This is what each AESENC in the amd64 assembly performs. -/
def aesenc (s k : Blk) : Blk := xorBlk (mixColumns (subBytes (shiftRows s))) k

/-- The AES round function in the order the specification states it:
SubBytes, ShiftRows, MixColumns, AddRoundKey. Stated from the spec's
words, to be compared with the instruction-level `aesenc`. -/
def specAesRound (s k : Blk) : Blk := xorBlk (mixColumns (shiftRows (subBytes s))) k

/-- CnRoundsAsm: ten consecutive AESENC instructions, keyed by the ten
128-bit round keys read in order from the round-key buffer
(offsets 0, 16, ..., 144), with no whitening XOR before the first round
and no special last round. -/
def cnRounds (b : Blk) (ks : List Blk) : Blk :=
  let r0 := aesenc b (ks.getD 0 zeroBlk)
  let r1 := aesenc r0 (ks.getD 1 zeroBlk)
  let r2 := aesenc r1 (ks.getD 2 zeroBlk)
  let r3 := aesenc r2 (ks.getD 3 zeroBlk)
  let r4 := aesenc r3 (ks.getD 4 zeroBlk)
  let r5 := aesenc r4 (ks.getD 5 zeroBlk)
  let r6 := aesenc r5 (ks.getD 6 zeroBlk)
  let r7 := aesenc r6 (ks.getD 7 zeroBlk)
  let r8 := aesenc r7 (ks.getD 8 zeroBlk)
  aesenc r8 (ks.getD 9 zeroBlk)

theorem aesenc_eq_specAesRound (s k : Blk) : aesenc s k = specAesRound s k := rfl

/-- Little-endian 32-bit word read from four consecutive bytes of a list
(the layout of a Go uint32 and of an XMM dword). -/
def le32At (l : List Nat) (off : Nat) : Nat :=
  (l.getD off 0 % 256) + (l.getD (off+1) 0 % 256) * 256 +
    (l.getD (off+2) 0 % 256) * 65536 + (l.getD (off+3) 0 % 256) * 16777216

/-- SubWord: the S-box applied to each of the four bytes of a 32-bit word. -/
def subWord (w : Nat) : Nat :=
  sub (w % 256) + sub (w / 256 % 256) * 256 + sub (w / 65536 % 256) * 65536 +
    sub (w / 16777216 % 256) * 16777216

/-- RotWord on a little-endian dword: the byte sequence a b c d becomes
b c d a, which on the LE value is a rotate right by 8 bits. -/
def rotWordR (w : Nat) : Nat := (w % 4294967296) / 256 + (w % 256) * 16777216

/-- Dword 3 of AESKEYGENASSIST(rcon, x), which PSHUFD 0xff broadcasts in
the odd expansion helper: RotWord(SubWord(x3)) XOR rcon. -/
def keyAssistHi (rcon w3 : Nat) : Nat := rotWordR (subWord w3) ^^^ rcon

/-- Dword 2 of AESKEYGENASSIST(rcon, x), which PSHUFD 0xaa broadcasts in
the even expansion helper: SubWord(x3), with no rotation and no rcon. -/
def keyAssistLo (w3 : Nat) : Nat := subWord w3

/-- Net effect of one _expand_key_256a / _expand_key_256b call on its
128-bit register: with X4's dword 0 kept zero across calls, the two
SHUFPS/PXOR pairs compute the prefix-XORs of the four dwords, and the
broadcast assist word t is XORed into every lane. -/
def expandQuad (x : List Nat) (t : Nat) : List Nat :=
  [x.getD 0 0 ^^^ t,
   x.getD 0 0 ^^^ x.getD 1 0 ^^^ t,
   x.getD 0 0 ^^^ x.getD 1 0 ^^^ x.getD 2 0 ^^^ t,
   x.getD 0 0 ^^^ x.getD 1 0 ^^^ x.getD 2 0 ^^^ x.getD 3 0 ^^^ t]

/-- The first 128-bit block CnExpandKeyAsm stores: the low key half,
MOVOU-copied verbatim (X0). -/
def ekA (key : List Nat) : List Nat :=
  [le32At key 0, le32At key 4, le32At key 8, le32At key 12]

/-- The second block stored: the high key half, copied verbatim (X2). -/
def ekB (key : List Nat) : List Nat :=
  [le32At key 16, le32At key 20, le32At key 24, le32At key 28]

/-- Block 3: AESKEYGENASSIST $0x01 of X2 followed by _expand_key_256a. -/
def ekR2 (key : List Nat) : List Nat :=
  expandQuad (ekA key) (keyAssistHi 1 ((ekB key).getD 3 0))

/-- Block 4: AESKEYGENASSIST $0x01 of X0 followed by _expand_key_256b. -/
def ekR3 (key : List Nat) : List Nat :=
  expandQuad (ekB key) (keyAssistLo ((ekR2 key).getD 3 0))

/-- Block 5: AESKEYGENASSIST $0x02 of X2 followed by _expand_key_256a. -/
def ekR4 (key : List Nat) : List Nat :=
  expandQuad (ekR2 key) (keyAssistHi 2 ((ekR3 key).getD 3 0))

/-- Block 6: AESKEYGENASSIST $0x02 of X0 followed by _expand_key_256b. -/
def ekR5 (key : List Nat) : List Nat :=
  expandQuad (ekR3 key) (keyAssistLo ((ekR4 key).getD 3 0))

/-- Block 7: AESKEYGENASSIST $0x04 of X2 followed by _expand_key_256a. -/
def ekR6 (key : List Nat) : List Nat :=
  expandQuad (ekR4 key) (keyAssistHi 4 ((ekR5 key).getD 3 0))

/-- Block 8: AESKEYGENASSIST $0x04 of X0 followed by _expand_key_256b. -/
def ekR7 (key : List Nat) : List Nat :=
  expandQuad (ekR5 key) (keyAssistLo ((ekR6 key).getD 3 0))

/-- Block 9: AESKEYGENASSIST $0x08 of X2 followed by _expand_key_256a. -/
def ekR8 (key : List Nat) : List Nat :=
  expandQuad (ekR6 key) (keyAssistHi 8 ((ekR7 key).getD 3 0))

/-- Block 10: AESKEYGENASSIST $0x08 of X0 followed by _expand_key_256b. -/
def ekR9 (key : List Nat) : List Nat :=
  expandQuad (ekR7 key) (keyAssistLo ((ekR8 key).getD 3 0))

/-- Block 11: AESKEYGENASSIST $0x10 of X2 followed by _expand_key_256a:
the final, eleventh store of the routine. -/
def ekR10 (key : List Nat) : List Nat :=
  expandQuad (ekR8 key) (keyAssistHi 16 ((ekR9 key).getD 3 0))

/-- CnExpandKeyAsm: the sequence of 32-bit words the assembly stores to
the round-key buffer, in order. It stores the two key halves and then
one 128-bit block per _expand_key_256 call; there are nine calls
(rcon 1, 1, 2, 2, 4, 4, 8, 8, 16), so eleven 16-byte blocks (44 words)
are stored in total. -/
def cnExpandKeyWords (key : List Nat) : List Nat :=
  ekA key ++ ekB key ++ ekR2 key ++ ekR3 key ++ ekR4 key ++ ekR5 key ++
    ekR6 key ++ ekR7 key ++ ekR8 key ++ ekR9 key ++ ekR10 key

/-- The published AES round constants, indexed from 1. -/
def rconVal (j : Nat) : Nat := [0, 1, 2, 4, 8, 16, 32, 64, 128, 27, 54].getD j 0

/-- One step of the published AES-256 key-schedule recurrence
(FIPS-197 section 5.2), on little-endian dwords: appends
W i = W (i-8) XOR t, where t is SubWord(RotWord(W (i-1))) XOR Rcon(i/8)
when i mod 8 = 0, SubWord(W (i-1)) when i mod 8 = 4, and W (i-1)
otherwise. Stated from the spec's words, to be compared with
cnExpandKeyWords. -/
def schedNext (ws : List Nat) : List Nat :=
  let i := ws.length
  let prev := ws.getD (i - 1) 0
  let t := if i % 8 == 0 then subWord (rotWordR prev) ^^^ rconVal (i / 8)
           else if i % 8 == 4 then subWord prev
           else prev
  ws ++ [ws.getD (i - 8) 0 ^^^ t]

/-- The first 8 + n words of the published AES-256 key schedule for a
32-byte key; n = 36 yields W0..W43, covering eleven 128-bit round keys. -/
def buildSched (key : List Nat) : Nat → List Nat
  | 0 => [le32At key 0, le32At key 4, le32At key 8, le32At key 12,
          le32At key 16, le32At key 20, le32At key 24, le32At key 28]
  | n + 1 => schedNext (buildSched key n)

/-- The AES-256 known-answer key of FIPS-197 appendix A.3. -/
def fipsA3Key : List Nat :=
  [0x60, 0x3d, 0xeb, 0x10, 0x15, 0xca, 0x71, 0xbe,
   0x2b, 0x73, 0xae, 0xf0, 0x85, 0x7d, 0x77, 0x81,
   0x1f, 0x35, 0x2c, 0x07, 0x3b, 0x61, 0x08, 0xd7,
   0x2d, 0x98, 0x10, 0xa3, 0x09, 0x14, 0xdf, 0xf4]

/-- The TO_ADDR macro of cryptonight.go: the little-endian 24-bit value
of a register's first three bytes, masked with 0x1ffff0. -/
def toAddr (a : List Nat) : Nat :=
  (((a.getD 2 0 % 256) <<< 16) ||| ((a.getD 1 0 % 256) <<< 8) ||| (a.getD 0 0 % 256)) &&& 0x1ffff0

/-- Little-endian 64-bit value of the first eight bytes of a list
(the layout of a Go uint64 lane aliasing eight bytes). -/
def le64 (l : List Nat) : Nat :=
  (l.getD 0 0 % 256) + (l.getD 1 0 % 256) * 256 + (l.getD 2 0 % 256) * 65536 +
    (l.getD 3 0 % 256) * 16777216 + (l.getD 4 0 % 256) * 4294967296 +
    (l.getD 5 0 % 256) * 1099511627776 + (l.getD 6 0 % 256) * 281474976710656 +
    (l.getD 7 0 % 256) * 72057594037927936

/-- The eight little-endian bytes of a 64-bit value. -/
def bytes64 (n : Nat) : List Nat :=
  [n % 256, n / 256 % 256, n / 65536 % 256, n / 16777216 % 256,
   n / 4294967296 % 256, n / 1099511627776 % 256, n / 281474976710656 % 256,
   n / 72057594037927936 % 256]

/-- Modelled from the spec: xorWords (called by cryptonight.go but whose
definition is not under src/) XORs two equal-length byte slices into the
destination; here it is the bytewise XOR of the two source slices. -/
def zipXor (x y : List Nat) : List Nat := List.zipWith (fun a b => a ^^^ b) x y

/-- Modelled from the spec: byteMul (called at cryptonight.go line 149;
its definition is not under src/) is the 64x64 -> 128-bit widening
multiply of the two low lanes; product[0] holds the high 64 bits and
product[1] the low 64 bits (the CryptoNight convention; the spec leaves
the lane order open). -/
def byteMul (x y : Nat) : Nat × Nat := (x * y / 18446744073709551616 % 18446744073709551616, x * y % 18446744073709551616)

/-- The byteAdd step of cryptonight.go lines 151-152: the two uint64
lanes of register a are incremented by the two product lanes, each
lane wrapping modulo 2^64 independently. -/
def byteAdd (a : List Nat) (p : Nat × Nat) : List Nat :=
  bytes64 ((le64 (a.take 8) + p.1) % 18446744073709551616) ++
    bytes64 ((le64 (a.drop 8) + p.2) % 18446744073709551616)

/-- The 2 MiB scratchpad, as a total function from byte address to byte. -/
def Pad : Type := Nat → Nat

/-- Read n consecutive scratchpad bytes starting at address a. -/
def padRead (p : Pad) (a : Nat) : Nat → List Nat
  | 0 => []
  | n + 1 => p a :: padRead p (a + 1) n

/-- Write a byte slice to the scratchpad starting at address j. -/
def padWriteBytes (p : Pad) (j : Nat) (bs : List Nat) : Pad :=
  fun i => if j ≤ i ∧ i < j + bs.length then bs.getD (i - j) 0 else p i

/-- Write a single scratchpad byte. -/
def padWrite1 (p : Pad) (j x : Nat) : Pad :=
  fun i => if i = j then x else p i

/-- The variant-1 single-byte tweak of cryptonight.go lines 142-144,
applied to the scratchpad byte at address j: with t the current byte,
XOR it with ((~t & 1) << 4) | ((((~t & 1) << 4) & t) << 1) | ((t & 32) >> 1). -/
def tweakByteAt (p : Pad) (j : Nat) : Pad :=
  let t := p j % 256
  let m := (((t ^^^ 255) &&& 1) <<< 4) ||| (((((t ^^^ 255) &&& 1) <<< 4) &&& t) <<< 1) |||
    ((t &&& 32) >>> 1)
  padWrite1 p j (t ^^^ m)

/-- The variant-1 tweak XOR of cryptonight.go lines 157-161: the eight
tweak bytes are XORed into scratchpad bytes j+8 .. j+15. -/
def padXor8 (p : Pad) (j : Nat) (tw : List Nat) : Pad :=
  fun i => if j + 8 ≤ i ∧ i < j + 16 then p i ^^^ tw.getD (i - (j + 8)) 0 else p i

/-- Bundle a byte list into a 128-bit block. -/
def blkOfBytes (l : List Nat) : Blk :=
  ⟨l.getD 0 0, l.getD 1 0, l.getD 2 0, l.getD 3 0, l.getD 4 0, l.getD 5 0,
   l.getD 6 0, l.getD 7 0, l.getD 8 0, l.getD 9 0, l.getD 10 0, l.getD 11 0,
   l.getD 12 0, l.getD 13 0, l.getD 14 0, l.getD 15 0⟩

/-- The 16 bytes of a block. -/
def blkBytes (b : Blk) : List Nat :=
  [b.b0, b.b1, b.b2, b.b3, b.b4, b.b5, b.b6, b.b7,
   b.b8, b.b9, b.b10, b.b11, b.b12, b.b13, b.b14, b.b15]

/-- The external primitives the core consumes as black boxes: Keccak-1600
absorption (producing the initial 200-byte state from the message) and raw
permutation, and the four 256-bit finalizer hashes (BLAKE-256, Groestl-256,
JH-256, Skein-256), each with its advertised output-length law. -/
structure Prims where
  absorb : List Nat → List Nat
  permute : List Nat → List Nat
  finalBlake : List Nat → List Nat
  finalGroestl : List Nat → List Nat
  finalJH : List Nat → List Nat
  finalSkein : List Nat → List Nat
  absorb_len : ∀ d, (absorb d).length = 200
  permute_len : ∀ s, s.length = 200 → (permute s).length = 200
  blake_len : ∀ s, (finalBlake s).length = 32
  groestl_len : ∀ s, (finalGroestl s).length = 32
  jh_len : ∀ s, (finalJH s).length = 32
  skein_len : ∀ s, (finalSkein s).length = 32

/-- The Cache of cryptonight.go: a 200-byte state buffer and the 2 MiB
scratchpad, reusable across calls. -/
structure CacheSt where
  finalState : List Nat
  scratchpad : Pad

/-- The zero value of Cache, ready to use. -/
def zeroCache : CacheSt := ⟨List.replicate 200 0, fun _ => 0⟩

/-- The first 10 round keys produced by CnExpandKey, as 128-bit blocks:
the 40 uint32 words of the rkeys buffer read as ten 16-byte round keys
(this is what CnRounds consumes; the eleventh block the assembly stores
lands past the buffer). -/
def rkeysOfKey (key : List Nat) : List Blk :=
  let ws := List.take 40 (cnExpandKeyWords key)
  let bs := ws.foldr (fun w acc =>
    w % 256 :: (w / 256 % 256) :: (w / 65536 % 256) :: (w / 16777216 % 256) :: acc) []
  (List.range 10).map (fun i => blkOfBytes ((bs.drop (16 * i)).take 16))

/-- One 128-byte chunk transformation of the scratchpad initializer and
result compressor: each of the eight 16-byte sub-blocks goes through
CnRounds independently. Always returns exactly 128 bytes. -/
def encChunk (rks : List Blk) (blocks : List Nat) : List Nat :=
  blkBytes (cnRounds (blkOfBytes (blocks.take 16)) rks) ++
  blkBytes (cnRounds (blkOfBytes ((blocks.drop 16).take 16)) rks) ++
  blkBytes (cnRounds (blkOfBytes ((blocks.drop 32).take 16)) rks) ++
  blkBytes (cnRounds (blkOfBytes ((blocks.drop 48).take 16)) rks) ++
  blkBytes (cnRounds (blkOfBytes ((blocks.drop 64).take 16)) rks) ++
  blkBytes (cnRounds (blkOfBytes ((blocks.drop 80).take 16)) rks) ++
  blkBytes (cnRounds (blkOfBytes ((blocks.drop 96).take 16)) rks) ++
  blkBytes (cnRounds (blkOfBytes ((blocks.drop 112).take 16)) rks)

/-- The scratchpad-initializer loop (cryptonight.go lines 115-120):
n remaining 128-byte chunks, next write address j; each step encrypts
the carried 128-byte block in place and copies it to the scratchpad. -/
def initLoop (rks : List Blk) : Nat → Nat → List Nat → Pad → List Nat × Pad
  | 0, _, blocks, pad => (blocks, pad)
  | n + 1, j, blocks, pad =>
    let b2 := encChunk rks blocks
    initLoop rks n (j + 128) b2 (padWriteBytes pad j b2)

/-- Register c of one memory-hard iteration: one AES round applied to the
scratchpad cell addressed from a, keyed by a itself (cryptonight.go
lines 135-137). -/
def mixC (a : List Nat) (pad : Pad) : List Nat :=
  blkBytes (aesenc (blkOfBytes (padRead pad (toAddr a) 16)) (blkOfBytes a))

/-- The scratchpad as it stands after the first write of one memory-hard
iteration: cell addr gets b XOR c (line 138), and under variant 1 the
byte at addr+11 receives the single-byte tweak (lines 141-145). -/
def mixPadMid (v : Int) (a b : List Nat) (pad : Pad) : Pad :=
  let addr := toAddr a
  let c := mixC a pad
  let pad1 := padWriteBytes pad addr (zipXor b c)
  if v = 1 then tweakByteAt pad1 (addr + 11) else pad1

/-- Register d of one memory-hard iteration: the scratchpad cell
addressed from c, read after the first write (lines 147-148). -/
def mixD (v : Int) (a b : List Nat) (pad : Pad) : List Nat :=
  padRead (mixPadMid v a b pad) (toAddr (mixC a pad)) 16

/-- One iteration of the memory-hard loop (cryptonight.go lines 134-162),
returning the new a, the new b, and the new scratchpad. -/
def mixStep (v : Int) (tw : List Nat) (a b : List Nat) (pad : Pad) :
    List Nat × List Nat × Pad :=
  let c := mixC a pad
  let pad1 := mixPadMid v a b pad
  let addr2 := toAddr c
  let d := padRead pad1 addr2 16
  let product := byteMul (le64 (c.take 8)) (le64 (d.take 8))
  let a2 := byteAdd a product
  let pad2 := padWriteBytes pad1 addr2 a2
  let a3 := zipXor a2 d
  let pad3 := if v = 1 then padXor8 pad2 addr2 tw else pad2
  (a3, c, pad3)

/-- The memory-hard loop, iterated n times. -/
def mixLoop (v : Int) (tw : List Nat) : Nat → List Nat → List Nat → Pad →
    List Nat × List Nat × Pad
  | 0, a, b, pad => (a, b, pad)
  | n + 1, a, b, pad =>
    let s := mixStep v tw a b pad
    mixLoop v tw n s.1 s.2.1 s.2.2

/-- The result-compressor loop (cryptonight.go lines 169-175): each
128-byte chunk is XORed with the carried blocks value, re-encrypted in
place, and becomes the new carried value. -/
def comprLoop (rks : List Blk) : Nat → Nat → List Nat → Pad → List Nat × Pad
  | 0, _, blocks, pad => (blocks, pad)
  | n + 1, j, blocks, pad =>
    let pre := zipXor (padRead pad j 128) blocks
    let pad1 := padWriteBytes pad j pre
    let enc := encChunk rks pre
    comprLoop rks n (j + 128) enc (padWriteBytes pad1 j enc)

/-- The 200-byte Keccak state right after absorption (line 101). -/
def stInit (p : Prims) (d : List Nat) : List Nat := p.absorb d

/-- The 8-byte tweak (lines 103-107): under variant 1 the XOR of state
bytes 192..199 with message bytes 35..42; otherwise all zeros. Go reads
data[35:43] and panics when the message is shorter than 43 bytes; the
embedding returns the truncated (out-of-contract) slice instead. -/
def tweakOf (p : Prims) (d : List Nat) (v : Int) : List Nat :=
  if v = 1 then zipXor ((stInit p d).drop 192) ((d.drop 35).take 8)
  else List.replicate 8 0

/-- The initial 128-byte blocks seed, state bytes 64..191 (line 113). -/
def initBlocks (p : Prims) (d : List Nat) : List Nat :=
  ((stInit p d).drop 64).take 128

/-- The scratchpad initializer (lines 109-120) applied to the cache's
scratchpad, with round keys from state bytes 0..31. -/
def initOut (p : Prims) (c : CacheSt) (d : List Nat) : List Nat × Pad :=
  initLoop (rkeysOfKey ((stInit p d).take 32)) 16384 0 (initBlocks p d) c.scratchpad

/-- Register a at loop entry: state[0:16) XOR state[32:48) (line 131). -/
def aInit (p : Prims) (d : List Nat) : List Nat :=
  zipXor ((stInit p d).take 16) (((stInit p d).drop 32).take 16)

/-- Register b at loop entry: state[16:32) XOR state[48:64) (line 132). -/
def bInit (p : Prims) (d : List Nat) : List Nat :=
  zipXor (((stInit p d).drop 16).take 16) (((stInit p d).drop 48).take 16)

/-- The memory-hard mixer output (lines 134-162): 524288 iterations. -/
def mixOut (p : Prims) (c : CacheSt) (d : List Nat) (v : Int) :
    List Nat × List Nat × Pad :=
  mixLoop v (tweakOf p d v) 524288 (aInit p d) (bInit p d) (initOut p c d).2

/-- The result compressor output (lines 165-175), keyed from state bytes
32..63 and seeded from state bytes 64..191. -/
def comprOut (p : Prims) (c : CacheSt) (d : List Nat) (v : Int) :
    List Nat × Pad :=
  comprLoop (rkeysOfKey (((stInit p d).drop 32).take 32)) 16384 0 (initBlocks p d)
    (mixOut p c d v).2.2

/-- The 200-byte state fed to the final Keccak permutation: the absorbed
state with bytes 64..191 replaced by the compressor's final blocks value
(line 177). -/
def prePermuteState (p : Prims) (c : CacheSt) (d : List Nat) (v : Int) : List Nat :=
  (stInit p d).take 64 ++ (comprOut p c d v).1 ++ (stInit p d).drop 192

/-- The state after the raw Keccak-1600 permutation (line 181). -/
def postPermuteState (p : Prims) (c : CacheSt) (d : List Nat) (v : Int) : List Nat :=
  p.permute (prePermuteState p c d v)

/-- The finalizer dispatch of cryptonight.go lines 183-196: the low two
bits of byte 0 of the permuted state select the hash, which digests the
whole 200-byte state. -/
def finalDispatch (p : Prims) (st : List Nat) : List Nat :=
  match (st.getD 0 0) &&& 3 with
  | 0 => p.finalBlake st
  | 1 => p.finalGroestl st
  | 2 => p.finalJH st
  | _ => p.finalSkein st

/-- Cache.Sum: the digest together with the cache contents as the call
leaves them (the permuted state and the compressor-rewritten scratchpad). -/
def cacheSum (p : Prims) (c : CacheSt) (d : List Nat) (v : Int) :
    List Nat × CacheSt :=
  (finalDispatch p (postPermuteState p c d v),
   ⟨postPermuteState p c d v, (comprOut p c d v).2⟩)

/-- The package-level Sum: Cache.Sum on a fresh zero cache (line 209). -/
def Sum (p : Prims) (d : List Nat) (v : Int) : List Nat :=
  (cacheSum p zeroCache d v).1

/-- Trivial instantiation of the external primitives, used to witness
the parameterized theorems at a concrete input. -/
def trivPrims : Prims where
  absorb := fun _ => List.replicate 200 0
  permute := fun s => s
  finalBlake := fun _ => List.replicate 32 0
  finalGroestl := fun _ => List.replicate 32 1
  finalJH := fun _ => List.replicate 32 2
  finalSkein := fun _ => List.replicate 32 3
  absorb_len := fun _ => List.length_replicate 200 0
  permute_len := fun _ h => h
  blake_len := fun _ => List.length_replicate 32 0
  groestl_len := fun _ => List.length_replicate 32 1
  jh_len := fun _ => List.length_replicate 32 2
  skein_len := fun _ => List.length_replicate 32 3

theorem mixPadMid_ne_one (v : Int) (hv : v ≠ 1) (a b : List Nat) (pad : Pad) :
    mixPadMid v a b pad = mixPadMid 0 a b pad := by
  unfold mixPadMid
  rw [if_neg hv, if_neg (by decide : ¬((0 : Int) = 1))]

theorem mixStep_ne_one (v : Int) (hv : v ≠ 1) (tw a b : List Nat) (pad : Pad) :
    mixStep v tw a b pad = mixStep 0 tw a b pad := by
  simp only [mixStep]
  rw [mixPadMid_ne_one v hv, if_neg hv, if_neg (by decide : ¬((0 : Int) = 1))]

theorem mixLoop_ne_one (v : Int) (hv : v ≠ 1) (tw : List Nat) (n : Nat) :
    ∀ (a b : List Nat) (pad : Pad),
      mixLoop v tw n a b pad = mixLoop 0 tw n a b pad := by
  induction n with
  | zero => intro a b pad; rfl
  | succ m ih =>
    intro a b pad
    show mixLoop v tw m _ _ _ = mixLoop 0 tw m _ _ _
    rw [mixStep_ne_one v hv]
    exact ih _ _ _

/-- Agreement of two scratchpads on the whole 2 MiB address range. -/
def padEq (p q : Pad) : Prop := ∀ i, i < 2097152 → p i = q i

theorem toAddr_le (a : List Nat) : toAddr a ≤ 2097136 := Nat.and_le_right

theorem padRead_congr {p q : Pad} (h : padEq p q) :
    ∀ (n a : Nat), a + n ≤ 2097152 → padRead p a n = padRead q a n := by
  intro n
  induction n with
  | zero => intro a _; rfl
  | succ m ih =>
    intro a ha
    show p a :: padRead p (a + 1) m = q a :: padRead q (a + 1) m
    rw [h a (by omega), ih (a + 1) (by omega)]

theorem padWriteBytes_congr {p q : Pad} (h : padEq p q) (j : Nat) (bs : List Nat) :
    padEq (padWriteBytes p j bs) (padWriteBytes q j bs) := by
  intro i hi
  unfold padWriteBytes
  by_cases hc : j ≤ i ∧ i < j + bs.length
  · simp [hc]
  · simp only [if_neg hc]
    exact h i hi

theorem padWrite1_congr {p q : Pad} (h : padEq p q) (j x : Nat) :
    padEq (padWrite1 p j x) (padWrite1 q j x) := by
  intro i hi
  unfold padWrite1
  by_cases hc : i = j
  · simp [hc]
  · simp only [if_neg hc]
    exact h i hi

theorem tweakByteAt_congr {p q : Pad} (h : padEq p q) (j : Nat) (hj : j < 2097152) :
    padEq (tweakByteAt p j) (tweakByteAt q j) := by
  simp only [tweakByteAt]
  rw [h j hj]
  exact padWrite1_congr h j _

theorem padXor8_congr {p q : Pad} (h : padEq p q) (j : Nat) (tw : List Nat) :
    padEq (padXor8 p j tw) (padXor8 q j tw) := by
  intro i hi
  unfold padXor8
  by_cases hc : j + 8 ≤ i ∧ i < j + 16
  · simp only [if_pos hc]
    rw [h i hi]
  · simp only [if_neg hc]
    exact h i hi

theorem mixC_congr {p q : Pad} (h : padEq p q) (a : List Nat) :
    mixC a p = mixC a q := by
  unfold mixC
  rw [padRead_congr h 16 (toAddr a) (by have := toAddr_le a; omega)]

theorem mixPadMid_congr {p q : Pad} (h : padEq p q) (v : Int) (a b : List Nat) :
    padEq (mixPadMid v a b p) (mixPadMid v a b q) := by
  simp only [mixPadMid]
  rw [mixC_congr h a]
  by_cases hv : v = 1
  · simp only [if_pos hv]
    exact tweakByteAt_congr (padWriteBytes_congr h _ _) _ (by have := toAddr_le a; omega)
  · simp only [if_neg hv]
    exact padWriteBytes_congr h _ _

theorem mixStep_congr {p q : Pad} (h : padEq p q) (v : Int) (tw a b : List Nat) :
    (mixStep v tw a b p).1 = (mixStep v tw a b q).1 ∧
    (mixStep v tw a b p).2.1 = (mixStep v tw a b q).2.1 ∧
    padEq (mixStep v tw a b p).2.2 (mixStep v tw a b q).2.2 := by
  have hc := mixC_congr h a
  have hmid := mixPadMid_congr h v a b
  have hd : padRead (mixPadMid v a b p) (toAddr (mixC a q)) 16 =
      padRead (mixPadMid v a b q) (toAddr (mixC a q)) 16 :=
    padRead_congr hmid 16 _ (by have := toAddr_le (mixC a q); omega)
  simp only [mixStep]
  rw [hc, hd]
  refine ⟨rfl, rfl, ?_⟩
  have hp2 := padWriteBytes_congr hmid (toAddr (mixC a q))
    (byteAdd a (byteMul (le64 ((mixC a q).take 8))
      (le64 ((padRead (mixPadMid v a b q) (toAddr (mixC a q)) 16).take 8))))
  by_cases hv : v = 1
  · simp only [if_pos hv]
    exact padXor8_congr hp2 _ tw
  · simp only [if_neg hv]
    exact hp2

theorem mixLoop_congr (v : Int) (tw : List Nat) :
    ∀ (n : Nat) (a b : List Nat) (p q : Pad), padEq p q →
      (mixLoop v tw n a b p).1 = (mixLoop v tw n a b q).1 ∧
      (mixLoop v tw n a b p).2.1 = (mixLoop v tw n a b q).2.1 ∧
      padEq (mixLoop v tw n a b p).2.2 (mixLoop v tw n a b q).2.2 := by
  intro n
  induction n with
  | zero => intro a b p q h; exact ⟨rfl, rfl, h⟩
  | succ m ih =>
    intro a b p q h
    obtain ⟨h1, h2, h3⟩ := mixStep_congr h v tw a b
    simp only [mixLoop]
    rw [h1, h2]
    exact ih _ _ _ _ h3

theorem encChunk_len (rks : List Blk) (bs : List Nat) : (encChunk rks bs).length = 128 := by
  simp [encChunk, blkBytes]

theorem initLoop_agree (rks : List Blk) :
    ∀ (n j : Nat) (blocks : List Nat) (p q : Pad),
      (∀ i, i < j → p i = q i) →
      (initLoop rks n j blocks p).1 = (initLoop rks n j blocks q).1 ∧
      ∀ i, i < j + 128 * n →
        (initLoop rks n j blocks p).2 i = (initLoop rks n j blocks q).2 i := by
  intro n
  induction n with
  | zero =>
    intro j blocks p q h
    exact ⟨rfl, fun i hi => h i (by omega)⟩
  | succ m ih =>
    intro j blocks p q h
    simp only [initLoop]
    have hlen := encChunk_len rks blocks
    have hagree : ∀ i, i < j + 128 →
        padWriteBytes p j (encChunk rks blocks) i =
          padWriteBytes q j (encChunk rks blocks) i := by
      intro i hi
      unfold padWriteBytes
      by_cases hc : j ≤ i ∧ i < j + (encChunk rks blocks).length
      · simp [hc]
      · simp only [if_neg hc]
        rw [hlen] at hc
        exact h i (by omega)
    obtain ⟨hf, hp⟩ := ih (j + 128) (encChunk rks blocks) _ _ hagree
    exact ⟨hf, fun i hi => hp i (by omega)⟩

theorem comprLoop_congr (rks : List Blk) :
    ∀ (n j : Nat) (blocks : List Nat) (p q : Pad), padEq p q →
      128 * n + j = 2097152 →
      (comprLoop rks n j blocks p).1 = (comprLoop rks n j blocks q).1 ∧
      padEq (comprLoop rks n j blocks p).2 (comprLoop rks n j blocks q).2 := by
  intro n
  induction n with
  | zero => intro j blocks p q h _; exact ⟨rfl, h⟩
  | succ m ih =>
    intro j blocks p q h hinv
    simp only [comprLoop]
    rw [padRead_congr h 128 j (by omega)]
    exact ih (j + 128) _ _ _
      (padWriteBytes_congr (padWriteBytes_congr h _ _) _ _) (by omega)

theorem comprLoop_fst_len (rks : List Blk) :
    ∀ (n j : Nat) (blocks : List Nat) (p : Pad), blocks.length = 128 →
      ((comprLoop rks n j blocks p).1).length = 128 := by
  intro n
  induction n with
  | zero => intro j blocks p h; exact h
  | succ m ih =>
    intro j blocks p _
    simp only [comprLoop]
    exact ih _ _ _ (encChunk_len rks _)

theorem initOut_padEq (p : Prims) (c c' : CacheSt) (d : List Nat) :
    padEq (initOut p c d).2 (initOut p c' d).2 := by
  unfold initOut
  obtain ⟨-, hpad⟩ := initLoop_agree (rkeysOfKey ((stInit p d).take 32)) 16384 0
    (initBlocks p d) c.scratchpad c'.scratchpad (fun i hi => absurd hi (by omega))
  exact fun i hi => hpad i (by omega)

theorem mixOut_padEq (p : Prims) (c c' : CacheSt) (d : List Nat) (v : Int) :
    padEq (mixOut p c d v).2.2 (mixOut p c' d v).2.2 := by
  unfold mixOut
  exact (mixLoop_congr v (tweakOf p d v) 524288 (aInit p d) (bInit p d) _ _
    (initOut_padEq p c c' d)).2.2

theorem comprOut_ext (p : Prims) (c c' : CacheSt) (d : List Nat) (v : Int) :
    (comprOut p c d v).1 = (comprOut p c' d v).1 ∧
    padEq (comprOut p c d v).2 (comprOut p c' d v).2 := by
  unfold comprOut
  exact comprLoop_congr (rkeysOfKey (((stInit p d).drop 32).take 32)) 16384 0
    (initBlocks p d) _ _ (mixOut_padEq p c c' d v) (by norm_num)

theorem cacheSum_fst_ext (p : Prims) (c c' : CacheSt) (d : List Nat) (v : Int) :
    (cacheSum p c d v).1 = (cacheSum p c' d v).1 := by
  show finalDispatch p (postPermuteState p c d v) =
    finalDispatch p (postPermuteState p c' d v)
  have hpre : prePermuteState p c d v = prePermuteState p c' d v := by
    unfold prePermuteState
    rw [(comprOut_ext p c c' d v).1]
  unfold postPermuteState
  rw [hpre]

/-- The finalizer selection, stated from the spec's words: the low two
bits of byte 0 of the permuted state choose BLAKE-256 (0), Groestl-256
(1), JH-256 (2) or Skein-256 (3), each fed the whole state. -/
def specDispatch (p : Prims) (st : List Nat) : List Nat :=
  if st.getD 0 0 &&& 3 = 0 then p.finalBlake st
  else if st.getD 0 0 &&& 3 = 1 then p.finalGroestl st
  else if st.getD 0 0 &&& 3 = 2 then p.finalJH st
  else p.finalSkein st

theorem finalDispatch_eq_spec (p : Prims) (st : List Nat) :
    finalDispatch p st = specDispatch p st := by
  have h : st.getD 0 0 &&& 3 ≤ 3 := Nat.and_le_right
  rcases e : st.getD 0 0 &&& 3 with _ | _ | _ | _ | n
  · unfold finalDispatch specDispatch
    rw [e]
    rfl
  · unfold finalDispatch specDispatch
    rw [e]
    rfl
  · unfold finalDispatch specDispatch
    rw [e]
    rfl
  · unfold finalDispatch specDispatch
    rw [e]
    rfl
  · rw [e] at h; omega

theorem prePermuteState_len (p : Prims) (c : CacheSt) (d : List Nat) (v : Int) :
    (prePermuteState p c d v).length = 200 := by
  have hst : (stInit p d).length = 200 := p.absorb_len d
  have hib : (initBlocks p d).length = 128 := by
    simp only [initBlocks, List.length_take, List.length_drop, hst]
    omega
  have hcb : ((comprOut p c d v).1).length = 128 := by
    unfold comprOut
    exact comprLoop_fst_len _ 16384 0 _ _ hib
  simp only [prePermuteState, List.length_append, List.length_take,
    List.length_drop, hst, hcb]
  omega

theorem xor_left_comm (a b c : Nat) : a ^^^ (b ^^^ c) = b ^^^ (a ^^^ c) := by
  rw [← Nat.xor_assoc, Nat.xor_comm a b, Nat.xor_assoc]

theorem bytes_ext (b0 b1 b2 b3 : Nat) (h0 : b0 < 256) (h1 : b1 < 256)
    (h2 : b2 < 256) (h3 : b3 < 256) :
    (b0 + b1*256 + b2*65536 + b3*16777216) % 256 = b0 ∧
    (b0 + b1*256 + b2*65536 + b3*16777216) / 256 % 256 = b1 ∧
    (b0 + b1*256 + b2*65536 + b3*16777216) / 65536 % 256 = b2 ∧
    (b0 + b1*256 + b2*65536 + b3*16777216) / 16777216 % 256 = b3 ∧
    (b0 + b1*256 + b2*65536 + b3*16777216) % 4294967296 =
      b0 + b1*256 + b2*65536 + b3*16777216 :=
  ⟨by omega, by omega, by omega, by omega, by omega⟩

set_option maxRecDepth 4096 in
theorem sub_lt (x : Nat) : sub x < 256 := by
  have H : ∀ y, y < 256 → sboxTable.getD y 0 < 256 := by decide
  exact H (x % 256) (Nat.mod_lt _ (by norm_num))

/-- SubWord and RotWord commute, which is why AESKEYGENASSIST's
RotWord-after-SubWord order agrees with FIPS-197's SubWord-after-RotWord. -/
theorem subWord_rotWordR (w : Nat) : subWord (rotWordR w) = rotWordR (subWord w) := by
  have hr : rotWordR w = w / 256 % 256 + (w / 65536 % 256) * 256 +
      (w / 16777216 % 256) * 65536 + (w % 256) * 16777216 := by
    unfold rotWordR
    omega
  have hx := bytes_ext (w / 256 % 256) (w / 65536 % 256) (w / 16777216 % 256) (w % 256)
    (by omega) (by omega) (by omega) (by omega)
  rw [subWord, hr, hx.1, hx.2.1, hx.2.2.1, hx.2.2.2.1]
  rw [subWord, rotWordR]
  have hy := bytes_ext (sub (w % 256)) (sub (w / 256 % 256)) (sub (w / 65536 % 256))
    (sub (w / 16777216 % 256)) (sub_lt _) (sub_lt _) (sub_lt _) (sub_lt _)
  rw [hy.2.2.2.2, hy.1]
  omega

theorem schedNext_hi (ws : List Nat) (hm : ws.length % 8 = 0) :
    schedNext ws = ws ++ [ws.getD (ws.length - 8) 0 ^^^
      keyAssistHi (rconVal (ws.length / 8)) (ws.getD (ws.length - 1) 0)] := by
  have hc0 : (ws.length % 8 == 0) = true := by rw [hm]; rfl
  simp only [schedNext, keyAssistHi]
  rw [hc0, subWord_rotWordR]
  simp

theorem schedNext_lo (ws : List Nat) (hm : ws.length % 8 = 4) :
    schedNext ws = ws ++ [ws.getD (ws.length - 8) 0 ^^^
      keyAssistLo (ws.getD (ws.length - 1) 0)] := by
  have hc0 : (ws.length % 8 == 0) = false := by rw [hm]; rfl
  have hc4 : (ws.length % 8 == 4) = true := by rw [hm]; rfl
  simp only [schedNext, keyAssistLo]
  rw [hc0, hc4]
  simp

theorem schedNext_plain (ws : List Nat)
    (h0 : ws.length % 8 ≠ 0) (h4 : ws.length % 8 ≠ 4) :
    schedNext ws = ws ++ [ws.getD (ws.length - 8) 0 ^^^ ws.getD (ws.length - 1) 0] := by
  have hc0 : (ws.length % 8 == 0) = false := beq_eq_false_iff_ne.mpr h0
  have hc4 : (ws.length % 8 == 4) = false := beq_eq_false_iff_ne.mpr h4
  simp only [schedNext]
  rw [hc0, hc4]
  simp

theorem sched4 (ws : List Nat) (x0 x1 x2 x3 t : Nat)
    (h8 : 8 ≤ ws.length) (hm4 : ws.length % 4 = 0)
    (hx1 : ws.getD (ws.length - 7) 0 = x1)
    (hx2 : ws.getD (ws.length - 6) 0 = x2)
    (hx3 : ws.getD (ws.length - 5) 0 = x3)
    (e1 : schedNext ws = ws ++ [x0 ^^^ t]) :
    schedNext (schedNext (schedNext (schedNext ws))) =
      ws ++ expandQuad [x0, x1, x2, x3] t := by
  have l1 : (ws ++ [x0 ^^^ t]).length = ws.length + 1 := by simp
  have e2 : schedNext (ws ++ [x0 ^^^ t]) =
      ws ++ [x0 ^^^ t] ++ [x1 ^^^ (x0 ^^^ t)] := by
    rw [schedNext_plain (ws ++ [x0 ^^^ t]) (by rw [l1]; omega) (by rw [l1]; omega), l1]
    have g1 : (ws ++ [x0 ^^^ t]).getD (ws.length + 1 - 8) 0 = x1 := by
      rw [show ws.length + 1 - 8 = ws.length - 7 from by omega,
        List.getD_append _ _ _ _ (by omega), hx1]
    have g2 : (ws ++ [x0 ^^^ t]).getD (ws.length + 1 - 1) 0 = x0 ^^^ t := by
      rw [show ws.length + 1 - 1 = ws.length from by omega,
        List.getD_append_right _ _ _ _ (le_refl _)]
      simp
    rw [g1, g2]
  have l2 : (ws ++ [x0 ^^^ t] ++ [x1 ^^^ (x0 ^^^ t)]).length = ws.length + 2 := by simp
  have e3 : schedNext (ws ++ [x0 ^^^ t] ++ [x1 ^^^ (x0 ^^^ t)]) =
      ws ++ [x0 ^^^ t] ++ [x1 ^^^ (x0 ^^^ t)] ++ [x2 ^^^ (x1 ^^^ (x0 ^^^ t))] := by
    rw [schedNext_plain _ (by rw [l2]; omega) (by rw [l2]; omega), l2]
    have g1 : (ws ++ [x0 ^^^ t] ++ [x1 ^^^ (x0 ^^^ t)]).getD (ws.length + 2 - 8) 0 = x2 := by
      rw [show ws.length + 2 - 8 = ws.length - 6 from by omega,
        List.getD_append _ _ _ _ (by simp; omega),
        List.getD_append _ _ _ _ (by omega), hx2]
    have g2 : (ws ++ [x0 ^^^ t] ++ [x1 ^^^ (x0 ^^^ t)]).getD (ws.length + 2 - 1) 0 =
        x1 ^^^ (x0 ^^^ t) := by
      rw [show ws.length + 2 - 1 = ws.length + 1 from by omega,
        List.getD_append_right _ _ _ _ (by simp)]
      simp
    rw [g1, g2]
  have l3 : (ws ++ [x0 ^^^ t] ++ [x1 ^^^ (x0 ^^^ t)] ++
      [x2 ^^^ (x1 ^^^ (x0 ^^^ t))]).length = ws.length + 3 := by simp
  have e4 : schedNext (ws ++ [x0 ^^^ t] ++ [x1 ^^^ (x0 ^^^ t)] ++
        [x2 ^^^ (x1 ^^^ (x0 ^^^ t))]) =
      ws ++ [x0 ^^^ t] ++ [x1 ^^^ (x0 ^^^ t)] ++ [x2 ^^^ (x1 ^^^ (x0 ^^^ t))] ++
        [x3 ^^^ (x2 ^^^ (x1 ^^^ (x0 ^^^ t)))] := by
    rw [schedNext_plain _ (by rw [l3]; omega) (by rw [l3]; omega), l3]
    have g1 : (ws ++ [x0 ^^^ t] ++ [x1 ^^^ (x0 ^^^ t)] ++
        [x2 ^^^ (x1 ^^^ (x0 ^^^ t))]).getD (ws.length + 3 - 8) 0 = x3 := by
      rw [show ws.length + 3 - 8 = ws.length - 5 from by omega,
        List.getD_append _ _ _ _ (by simp; omega),
        List.getD_append _ _ _ _ (by simp; omega),
        List.getD_append _ _ _ _ (by omega), hx3]
    have g2 : (ws ++ [x0 ^^^ t] ++ [x1 ^^^ (x0 ^^^ t)] ++
        [x2 ^^^ (x1 ^^^ (x0 ^^^ t))]).getD (ws.length + 3 - 1) 0 =
        x2 ^^^ (x1 ^^^ (x0 ^^^ t)) := by
      rw [show ws.length + 3 - 1 = ws.length + 2 from by omega,
        List.getD_append_right _ _ _ _ (by simp)]
      simp
    rw [g1, g2]
  rw [e1, e2, e3, e4]
  simp [expandQuad, Nat.xor_assoc, Nat.xor_comm, xor_left_comm]

theorem sched4_hi (ws : List Nat) (h8 : 8 ≤ ws.length) (hm : ws.length % 8 = 0) :
    schedNext (schedNext (schedNext (schedNext ws))) =
      ws ++ expandQuad [ws.getD (ws.length - 8) 0, ws.getD (ws.length - 7) 0,
        ws.getD (ws.length - 6) 0, ws.getD (ws.length - 5) 0]
        (keyAssistHi (rconVal (ws.length / 8)) (ws.getD (ws.length - 1) 0)) :=
  sched4 ws _ _ _ _ _ h8 (by omega) rfl rfl rfl (schedNext_hi ws hm)

theorem sched4_lo (ws : List Nat) (h8 : 8 ≤ ws.length) (hm : ws.length % 8 = 4) :
    schedNext (schedNext (schedNext (schedNext ws))) =
      ws ++ expandQuad [ws.getD (ws.length - 8) 0, ws.getD (ws.length - 7) 0,
        ws.getD (ws.length - 6) 0, ws.getD (ws.length - 5) 0]
        (keyAssistLo (ws.getD (ws.length - 1) 0)) :=
  sched4 ws _ _ _ _ _ h8 (by omega) rfl rfl rfl (schedNext_lo ws hm)

theorem ekAB_len (key : List Nat) : (ekA key ++ ekB key).length = 8 := rfl

theorem acc3_len (key : List Nat) : (ekA key ++ ekB key ++ ekR2 key).length = 12 := rfl

theorem acc4_len (key : List Nat) :
    (ekA key ++ ekB key ++ ekR2 key ++ ekR3 key).length = 16 := rfl

theorem acc5_len (key : List Nat) :
    (ekA key ++ ekB key ++ ekR2 key ++ ekR3 key ++ ekR4 key).length = 20 := rfl

theorem acc6_len (key : List Nat) :
    (ekA key ++ ekB key ++ ekR2 key ++ ekR3 key ++ ekR4 key ++ ekR5 key).length = 24 := rfl

theorem acc7_len (key : List Nat) :
    (ekA key ++ ekB key ++ ekR2 key ++ ekR3 key ++ ekR4 key ++ ekR5 key ++
      ekR6 key).length = 28 := rfl

theorem acc8_len (key : List Nat) :
    (ekA key ++ ekB key ++ ekR2 key ++ ekR3 key ++ ekR4 key ++ ekR5 key ++
      ekR6 key ++ ekR7 key).length = 32 := rfl

theorem acc9_len (key : List Nat) :
    (ekA key ++ ekB key ++ ekR2 key ++ ekR3 key ++ ekR4 key ++ ekR5 key ++
      ekR6 key ++ ekR7 key ++ ekR8 key).length = 36 := rfl

theorem acc10_len (key : List Nat) :
    (ekA key ++ ekB key ++ ekR2 key ++ ekR3 key ++ ekR4 key ++ ekR5 key ++
      ekR6 key ++ ekR7 key ++ ekR8 key ++ ekR9 key).length = 40 := rfl

set_option maxHeartbeats 1600000 in
theorem cnExpandKeyWords_eq_sched (key : List Nat) :
    cnExpandKeyWords key = buildSched key 36 := by
  have s2 : buildSched key 4 = ekA key ++ ekB key ++ ekR2 key := by
    show schedNext (schedNext (schedNext (schedNext (buildSched key 0)))) = _
    rw [show buildSched key 0 = ekA key ++ ekB key from rfl,
      sched4_hi (ekA key ++ ekB key) (by rw [ekAB_len]) (by rw [ekAB_len]),
      show rconVal ((ekA key ++ ekB key).length / 8) = 1 from by rw [ekAB_len]; decide]
    exact rfl
  have s3 : buildSched key 8 =
      ekA key ++ ekB key ++ ekR2 key ++ ekR3 key := by
    show schedNext (schedNext (schedNext (schedNext (buildSched key 4)))) = _
    rw [s2, sched4_lo _ (by rw [acc3_len]; omega) (by rw [acc3_len])]
    exact rfl
  have s4 : buildSched key 12 =
      ekA key ++ ekB key ++ ekR2 key ++ ekR3 key ++ ekR4 key := by
    show schedNext (schedNext (schedNext (schedNext (buildSched key 8)))) = _
    rw [s3, sched4_hi _ (by rw [acc4_len]; omega) (by rw [acc4_len]),
      show rconVal ((ekA key ++ ekB key ++ ekR2 key ++ ekR3 key).length / 8) = 2 from by
        rw [acc4_len]; decide]
    exact rfl
  have s5 : buildSched key 16 =
      ekA key ++ ekB key ++ ekR2 key ++ ekR3 key ++ ekR4 key ++ ekR5 key := by
    show schedNext (schedNext (schedNext (schedNext (buildSched key 12)))) = _
    rw [s4, sched4_lo _ (by rw [acc5_len]; omega) (by rw [acc5_len])]
    exact rfl
  have s6 : buildSched key 20 =
      ekA key ++ ekB key ++ ekR2 key ++ ekR3 key ++ ekR4 key ++ ekR5 key ++
        ekR6 key := by
    show schedNext (schedNext (schedNext (schedNext (buildSched key 16)))) = _
    rw [s5, sched4_hi _ (by rw [acc6_len]; omega) (by rw [acc6_len]),
      show rconVal ((ekA key ++ ekB key ++ ekR2 key ++ ekR3 key ++ ekR4 key ++
        ekR5 key).length / 8) = 4 from by rw [acc6_len]; decide]
    exact rfl
  have s7 : buildSched key 24 =
      ekA key ++ ekB key ++ ekR2 key ++ ekR3 key ++ ekR4 key ++ ekR5 key ++
        ekR6 key ++ ekR7 key := by
    show schedNext (schedNext (schedNext (schedNext (buildSched key 20)))) = _
    rw [s6, sched4_lo _ (by rw [acc7_len]; omega) (by rw [acc7_len])]
    exact rfl
  have s8 : buildSched key 28 =
      ekA key ++ ekB key ++ ekR2 key ++ ekR3 key ++ ekR4 key ++ ekR5 key ++
        ekR6 key ++ ekR7 key ++ ekR8 key := by
    show schedNext (schedNext (schedNext (schedNext (buildSched key 24)))) = _
    rw [s7, sched4_hi _ (by rw [acc8_len]; omega) (by rw [acc8_len]),
      show rconVal ((ekA key ++ ekB key ++ ekR2 key ++ ekR3 key ++ ekR4 key ++
        ekR5 key ++ ekR6 key ++ ekR7 key).length / 8) = 8 from by rw [acc8_len]; decide]
    exact rfl
  have s9 : buildSched key 32 =
      ekA key ++ ekB key ++ ekR2 key ++ ekR3 key ++ ekR4 key ++ ekR5 key ++
        ekR6 key ++ ekR7 key ++ ekR8 key ++ ekR9 key := by
    show schedNext (schedNext (schedNext (schedNext (buildSched key 28)))) = _
    rw [s8, sched4_lo _ (by rw [acc9_len]; omega) (by rw [acc9_len])]
    exact rfl
  have s10 : buildSched key 36 =
      ekA key ++ ekB key ++ ekR2 key ++ ekR3 key ++ ekR4 key ++ ekR5 key ++
        ekR6 key ++ ekR7 key ++ ekR8 key ++ ekR9 key ++ ekR10 key := by
    show schedNext (schedNext (schedNext (schedNext (buildSched key 32)))) = _
    rw [s9, sched4_hi _ (by rw [acc10_len]; omega) (by rw [acc10_len]),
      show rconVal ((ekA key ++ ekB key ++ ekR2 key ++ ekR3 key ++ ekR4 key ++
        ekR5 key ++ ekR6 key ++ ekR7 key ++ ekR8 key ++ ekR9 key).length / 8) = 16 from by
        rw [acc10_len]; decide]
    exact rfl
  rw [s10]
  exact rfl

theorem cnExpandKeyWords_len (key : List Nat) :
    (cnExpandKeyWords key).length = 44 := rfl

end Cryptonight

/-- C6: in each iteration of the memory-hard loop the product is folded
into register a as two independent 64-bit lane additions, each reduced
modulo 2^64 on its own, with no carry from the low lane into the high
lane: the iteration's resulting a equals (low lane + product high word)
mod 2^64 and (high lane + product low word) mod 2^64, re-serialized to
bytes and XORed with d; and every iteration of the loop applies exactly
this step function. -/
theorem Cryptonight.mix_accumulate_lanewise (v : Int) (tw a b : List Nat)
    (pad : Cryptonight.Pad) :
    (Cryptonight.mixStep v tw a b pad).1 =
      Cryptonight.zipXor
        (Cryptonight.bytes64 ((Cryptonight.le64 (a.take 8) +
            (Cryptonight.byteMul (Cryptonight.le64 ((Cryptonight.mixC a pad).take 8))
              (Cryptonight.le64 ((Cryptonight.mixD v a b pad).take 8))).1) %
            18446744073709551616) ++
          Cryptonight.bytes64 ((Cryptonight.le64 (a.drop 8) +
            (Cryptonight.byteMul (Cryptonight.le64 ((Cryptonight.mixC a pad).take 8))
              (Cryptonight.le64 ((Cryptonight.mixD v a b pad).take 8))).2) %
            18446744073709551616))
        (Cryptonight.mixD v a b pad) ∧
    (∀ n : Nat, Cryptonight.mixLoop v tw (n + 1) a b pad =
      Cryptonight.mixLoop v tw n (Cryptonight.mixStep v tw a b pad).1
        (Cryptonight.mixStep v tw a b pad).2.1 (Cryptonight.mixStep v tw a b pad).2.2) :=
  ⟨rfl, fun _ => rfl⟩

/-- C4: for every message, every primitive instantiation and every
variant selector at least 2, Sum returns the same digest as variant 0:
no variant-1 tweak logic runs. -/
theorem Cryptonight.variant_ge_two_same_as_zero (p : Cryptonight.Prims)
    (d : List Nat) (v : Int) (hv : 2 ≤ v) :
    Cryptonight.Sum p d v = Cryptonight.Sum p d 0 := by
  have hne : v ≠ 1 := by omega
  have htw : Cryptonight.tweakOf p d v = Cryptonight.tweakOf p d 0 := by
    simp [Cryptonight.tweakOf, hne]
  simp only [Cryptonight.Sum, Cryptonight.cacheSum, Cryptonight.postPermuteState,
    Cryptonight.prePermuteState, Cryptonight.comprOut, Cryptonight.mixOut, htw,
    Cryptonight.mixLoop_ne_one v hne]

/-- Witness for C4 at a concrete input: variant 2, empty message. -/
theorem Cryptonight.variant_ge_two_same_as_zero_witness :
    (2 : Int) ≤ 2 ∧
      Cryptonight.Sum Cryptonight.trivPrims [] 2 = Cryptonight.Sum Cryptonight.trivPrims [] 0 :=
  ⟨by decide, Cryptonight.variant_ge_two_same_as_zero Cryptonight.trivPrims [] 2 (by decide)⟩

/-- C8: with variant 1 and messages of at least 43 bytes, the digest
depends on the message only through the Keccak absorption and the slice
data[35:43): two such messages with equal absorbed states and equal
slices hash identically; moreover the slice read is exactly 8 bytes,
i.e. in bounds. (The 8-byte tweak is built once from that slice XOR
state bytes 192..199 and, being a pure value in the embedding, is never
modified afterwards; a message shorter than 43 bytes is out of contract:
Go panics on data[35:43].) -/
theorem Cryptonight.variant1_message_dependence (p : Cryptonight.Prims)
    (d1 d2 : List Nat) (h1 : 43 ≤ d1.length) (h2 : 43 ≤ d2.length)
    (hab : p.absorb d1 = p.absorb d2)
    (hsl : (d1.drop 35).take 8 = (d2.drop 35).take 8) :
    Cryptonight.Sum p d1 1 = Cryptonight.Sum p d2 1 ∧
      ((d1.drop 35).take 8).length = 8 := by
  constructor
  · simp only [Cryptonight.Sum, Cryptonight.cacheSum, Cryptonight.postPermuteState,
      Cryptonight.prePermuteState, Cryptonight.comprOut, Cryptonight.mixOut,
      Cryptonight.initOut, Cryptonight.aInit, Cryptonight.bInit, Cryptonight.initBlocks,
      Cryptonight.tweakOf, Cryptonight.stInit, hab, hsl]
  · rw [List.length_take, List.length_drop]
    omega

/-- Witness for C8 at a concrete input: a 43-byte zero message. -/
theorem Cryptonight.variant1_message_dependence_witness :
    43 ≤ (List.replicate 43 (0 : Nat)).length ∧
      (Cryptonight.Sum Cryptonight.trivPrims (List.replicate 43 0) 1 =
          Cryptonight.Sum Cryptonight.trivPrims (List.replicate 43 0) 1 ∧
        (((List.replicate 43 (0 : Nat)).drop 35).take 8).length = 8) :=
  ⟨by simp, Cryptonight.variant1_message_dependence Cryptonight.trivPrims
    (List.replicate 43 0) (List.replicate 43 0) (by simp) (by simp) rfl rfl⟩


/-- C3: for every register value, the scratchpad address derived by the
masking rule is a multiple of 16 and, together with all byte offsets up
to +15 used by the memory-hard loop (the 16-byte reads and writes, the
byte at +11 and the bytes +8..+15), lies strictly below 2^21, the
scratchpad size. -/
theorem Cryptonight.toAddr_bound (a : List Nat) :
    16 ∣ Cryptonight.toAddr a ∧ Cryptonight.toAddr a < 2097152 ∧
      Cryptonight.toAddr a + 15 < 2097152 := by
  have hle : Cryptonight.toAddr a ≤ 2097136 := Nat.and_le_right
  have hmod : Cryptonight.toAddr a % 16 = 0 := by
    have h1 := Nat.and_pow_two_sub_one_eq_mod (Cryptonight.toAddr a) 4
    norm_num at h1
    rw [← h1]
    rw [Cryptonight.toAddr, Nat.and_assoc]
    have h2 : (2097136 &&& 15 : Nat) = 0 := by decide
    rw [h2, Nat.and_zero]
  exact ⟨Nat.dvd_of_mod_eq_zero hmod, by omega, by omega⟩


/-- C2 (code bug): for every 32-byte key, CnExpandKeyAsm stores the
first ELEVEN round keys of the published AES-256 key schedule (44 words,
176 bytes) — the first ten bit-for-bit as the claim states, but also an
eleventh key beyond them, overflowing the 40-word buffer that
cryptonight.go line 110 allocates by 16 bytes. The last two conjuncts
evaluate the routine on the FIPS-197 A.3 known-answer key. -/
theorem Cryptonight.cnExpandKey_stores_eleven_keys :
    (∀ key : List Nat, Cryptonight.cnExpandKeyWords key =
      Cryptonight.buildSched key 36) ∧
    (∀ key : List Nat, (Cryptonight.cnExpandKeyWords key).length = 44) ∧
    Cryptonight.cnExpandKeyWords Cryptonight.fipsA3Key =
      Cryptonight.buildSched Cryptonight.fipsA3Key 36 ∧
    (Cryptonight.cnExpandKeyWords Cryptonight.fipsA3Key).length = 44 := by
  refine ⟨Cryptonight.cnExpandKeyWords_eq_sched, Cryptonight.cnExpandKeyWords_len,
    by decide, by decide⟩

/-- C5: CnRounds applies the full AES encryption round
(SubBytes, ShiftRows, MixColumns, AddRoundKey) exactly ten consecutive
times, keyed by the ten round keys in order, with no initial whitening
XOR and no MixColumns-free final round: it equals a plain ten-fold
left fold of the specification's round function over the key list. -/
theorem Cryptonight.cnRounds_is_ten_full_rounds (b : Cryptonight.Blk)
    (ks : List Cryptonight.Blk) (h : ks.length = 10) :
    Cryptonight.cnRounds b ks = ks.foldl Cryptonight.specAesRound b := by
  rcases ks with _ | ⟨k0, _ | ⟨k1, _ | ⟨k2, _ | ⟨k3, _ | ⟨k4, _ | ⟨k5, _ | ⟨k6, _ |
    ⟨k7, _ | ⟨k8, _ | ⟨k9, t⟩⟩⟩⟩⟩⟩⟩⟩⟩⟩ <;> simp_all
  subst h
  simp [Cryptonight.cnRounds, Cryptonight.aesenc_eq_specAesRound]

/-- Witness for C5 at a concrete input: ten all-zero round keys. -/
theorem Cryptonight.cnRounds_is_ten_full_rounds_witness :
    (List.replicate 10 Cryptonight.zeroBlk).length = 10 ∧
    Cryptonight.cnRounds Cryptonight.zeroBlk (List.replicate 10 Cryptonight.zeroBlk) =
      (List.replicate 10 Cryptonight.zeroBlk).foldl Cryptonight.specAesRound
        Cryptonight.zeroBlk :=
  ⟨by decide, Cryptonight.cnRounds_is_ten_full_rounds Cryptonight.zeroBlk
    (List.replicate 10 Cryptonight.zeroBlk) (by decide)⟩

/-- C7: Cache.Sum's digest is the result of reading the low two bits of
byte 0 of the state only after the raw Keccak permutation, routing to
exactly one of the four 256-bit finalizers (0 BLAKE-256, 1 Groestl-256,
2 JH-256, 3 Skein-256), feeding it the full 200-byte permuted state, and
returning its 32-byte output verbatim; hence the result is always
exactly 32 bytes. -/
theorem Cryptonight.finalizer_dispatch_after_permute (p : Cryptonight.Prims)
    (c : Cryptonight.CacheSt) (d : List Nat) (v : Int) :
    (Cryptonight.cacheSum p c d v).1 =
      Cryptonight.specDispatch p (Cryptonight.postPermuteState p c d v) ∧
    ((Cryptonight.cacheSum p c d v).1).length = 32 ∧
    (Cryptonight.postPermuteState p c d v).length = 200 := by
  have hlen : (Cryptonight.postPermuteState p c d v).length = 200 := by
    unfold Cryptonight.postPermuteState
    exact p.permute_len _ (Cryptonight.prePermuteState_len p c d v)
  refine ⟨Cryptonight.finalDispatch_eq_spec p _, ?_, hlen⟩
  rw [show (Cryptonight.cacheSum p c d v).1 =
    Cryptonight.specDispatch p (Cryptonight.postPermuteState p c d v) from
    Cryptonight.finalDispatch_eq_spec p _]
  unfold Cryptonight.specDispatch
  split_ifs
  · exact p.blake_len _
  · exact p.groestl_len _
  · exact p.jh_len _
  · exact p.skein_len _

/-- C9: the digest Cache.Sum returns depends only on the message and the
variant, not on the prior contents of the cache buffers: each call of a
back-to-back pair on one reused cache returns exactly the digest that
the same call computes alone on a fresh zero cache. -/
theorem Cryptonight.cache_reuse_safe (p : Cryptonight.Prims)
    (c : Cryptonight.CacheSt) (m1 m2 : List Nat) (v1 v2 : Int) :
    (Cryptonight.cacheSum p c m1 v1).1 = Cryptonight.Sum p m1 v1 ∧
    (Cryptonight.cacheSum p (Cryptonight.cacheSum p c m1 v1).2 m2 v2).1 =
      Cryptonight.Sum p m2 v2 :=
  ⟨Cryptonight.cacheSum_fst_ext p c Cryptonight.zeroCache m1 v1,
   Cryptonight.cacheSum_fst_ext p (Cryptonight.cacheSum p c m1 v1).2
     Cryptonight.zeroCache m2 v2⟩
